import Mathlib

/-!
Verification development for the fediverse-crawler store layer and orchestrator.

The SQLite-backed store of the crawler is embedded shallowly: a database is a
record of lists mirroring the `instances` table and the three per-state side
tables (`dying_state_data`, `moving_state_data`, `moved_state_data`).  Each
store mutator from `src/db.rs` and `src/orchestrator/db.rs` becomes a pure
Lean function.  Nondeterministic inputs of the Rust code (the wall clock
`Utc::now()` and the random `rand_datetime_today`, `rand_datetime_daily`,
`rand_datetime_weekly` draws) are passed in as explicit integer arguments;
timestamps are integers (unix seconds), exactly as the rows store them.

A mutator that runs inside a rusqlite transaction returns `Option DB`:
`none` models an early error return, in which case the transaction is
dropped without commit and rolls back, leaving the database unchanged.

SQL semantics used by the embedding: `SELECT ... WHERE hostname = ?` with a
UNIQUE hostname column is `List.find?` (first match in rowid order);
`UPDATE ... WHERE` is `List.map` guarded by the WHERE predicate;
`DELETE ... WHERE` is `List.filter` with the negated predicate;
`INSERT` appends a row with the next surrogate id; `INSERT OR IGNORE` on
`instances` appends only when no row with that hostname exists; a plain
`INSERT` into a side table whose `instance` column is UNIQUE fails (and the
transaction rolls back) when a row for that instance already exists.
SQLite does not enforce the `REFERENCES` clauses here (the `foreign_keys`
pragma is never enabled by the code), so side-table reference columns are
plain integers and can hold arbitrary values.
-/

/-- The six instance lifecycle states, stored as small integers 0..5
(`InstanceState` in src/db.rs and src/orchestrator/db.rs). -/
inductive InstanceState
  | Discovered
  | Alive
  | Dying
  | Dead
  | Moving
  | Moved
  deriving DecidableEq, Repr

/-- One row of the `instances` table.  The union of the columns of the two
schema revisions in the repository: `discovered_datetime`, `discovered_via`
and `check_started` exist only in the src/orchestrator/db.rs schema; code
embedded from src/db.rs never touches them. -/
structure InstanceRow where
  id : Nat
  hostname : String
  discovered_datetime : Option Int
  discovered_via : Option Nat
  state : InstanceState
  last_check_datetime : Option Int
  next_check_datetime : Int
  check_started : Option Int
  deriving DecidableEq, Repr

/-- One row of `dying_state_data`.  `inst` is the `instance` column
(`instance` is a reserved word in Lean). -/
structure DyingRow where
  inst : Nat
  dying_since : Int
  failed_checks_count : Nat
  deriving DecidableEq, Repr

/-- One row of `moving_state_data`.  `moving_since` and `moving_to` are plain
integers: the schema declares `moving_to REFERENCES instances(id)` but the
reference is not enforced, and src/db.rs in fact writes a timestamp there. -/
structure MovingRow where
  inst : Nat
  moving_since : Int
  redirects_count : Nat
  moving_to : Int
  deriving DecidableEq, Repr

/-- One row of `moved_state_data`. -/
structure MovedRow where
  inst : Nat
  moved_to : Nat
  deriving DecidableEq, Repr

/-- The whole database file: the `instances` table, the three side tables,
and the next free surrogate id (SQLite INTEGER PRIMARY KEY assignment). -/
structure DB where
  instances : List InstanceRow
  dying : List DyingRow
  moving : List MovingRow
  moved : List MovedRow
  next_id : Nat
  deriving DecidableEq, Repr

namespace Db

/-- Embeds `init` from src/db.rs: idempotent schema creation (a no-op on the
model) plus `INSERT OR IGNORE` of the bootstrap hostname `mastodon.social`,
whose `next_check_datetime` defaults to the current time. -/
def init (now : Int) (db : DB) : DB :=
  if db.instances.any (fun r => r.hostname == "mastodon.social") then db
  else
    { db with
      instances := db.instances ++
        [{ id := db.next_id, hostname := "mastodon.social", discovered_datetime := none,
           discovered_via := none, state := .Discovered, last_check_datetime := none,
           next_check_datetime := now, check_started := none }],
      next_id := db.next_id + 1 }

/-- Embeds `reschedule_missed_checks` from src/db.rs: every instance whose
`next_check_datetime` lies in the past gets a fresh `rand_datetime_today`
draw, modelled by the function `fresh` from instance id to the drawn time.
No other column is touched. -/
def reschedule_missed_checks (now : Int) (fresh : Nat → Int) (db : DB) : DB :=
  { db with
    instances := db.instances.map (fun r =>
      if r.next_check_datetime < now then { r with
        next_check_datetime := fresh r.id } else r) }

/-- Embeds `mark_alive` from src/db.rs: look up the instance id by hostname
(an error, hence rollback, when absent), delete any row of the three side
tables for this instance, then set `state = Alive`,
`last_check_datetime = now` and `next_check_datetime` to a daily draw. -/
def mark_alive (now nextDaily : Int) (db : DB) (host : String) : Option DB :=
  match db.instances.find? (fun r => r.hostname == host) with
  | none => none
  | some row =>
    some { db with
      dying := db.dying.filter (fun d => d.inst != row.id),
      moving := db.moving.filter (fun m => m.inst != row.id),
      moved := db.moved.filter (fun m => m.inst != row.id),
      instances := db.instances.map (fun r =>
        if r.id == row.id then
          { r with
            state := .Alive, last_check_datetime := some now,
            next_check_datetime := nextDaily }
        else r) }

/-- Embeds `mark_dead` from src/db.rs (the Dying branch is identical in
src/orchestrator/db.rs).  From Discovered, Alive, Moving or Moved: delete
`moving_state_data` and `moved_state_data` rows, insert a fresh
`dying_state_data` row (`failed_checks_count` defaults to 1; the UNIQUE
`instance` column makes the insert fail if a dying row already exists), and
become Dying with a daily next check.  From Dying: increment
`failed_checks_count`, re-read the row, and when the new count exceeds 7 and
`dying_since` is later than a week before now, delete the dying row and
become Dead with a weekly next check; otherwise stay Dying with a daily next
check.  From Dead: only refresh the check datetimes with a weekly draw.
One week is 604800 seconds (`Duration::weeks(1)`). -/
def mark_dead (now nextDaily nextWeekly : Int) (db : DB) (host : String) : Option DB :=
  match db.instances.find? (fun r => r.hostname == host) with
  | none => none
  | some row =>
    match row.state with
    | .Discovered | .Alive | .Moving | .Moved =>
      if db.dying.any (fun d => d.inst == row.id) then none
      else
        some { db with
          moving := db.moving.filter (fun m => m.inst != row.id),
          moved := db.moved.filter (fun m => m.inst != row.id),
          dying := db.dying ++ [{ inst := row.id, dying_since := now, failed_checks_count := 1 }],
          instances := db.instances.map (fun r =>
            if r.id == row.id then
              { r with
                state := .Dying, last_check_datetime := some now,
                next_check_datetime := nextDaily }
            else r) }
    | .Dying =>
      let dying1 := db.dying.map (fun d =>
        if d.inst == row.id then { d with
          failed_checks_count := d.failed_checks_count + 1 }
        else d)
      match dying1.find? (fun d => d.inst == row.id) with
      | none => none
      | some d =>
        if 7 < d.failed_checks_count ∧ now - 604800 < d.dying_since then
          some { db with
            dying := dying1.filter (fun x => x.inst != row.id),
            instances := db.instances.map (fun r =>
              if r.id == row.id then
                { r with
                  state := .Dead, last_check_datetime := some now,
                  next_check_datetime := nextWeekly }
              else r) }
        else
          some { db with
            dying := dying1,
            instances := db.instances.map (fun r =>
              if r.id == row.id then
                { r with
                  last_check_datetime := some now, next_check_datetime := nextDaily }
              else r) }
    | .Dead =>
      some { db with
        instances := db.instances.map (fun r =>
          if r.id == row.id then
            { r with
              last_check_datetime := some now, next_check_datetime := nextWeekly }
          else r) }

/-- Embeds `mark_moved` from src/db.rs.  From Discovered, Alive, Dying or
Dead: delete the dying row, `INSERT OR IGNORE` the redirect target as a new
Discovered instance scheduled today, then insert a `moving_state_data` row.
The source passes the parameters in the order
`params![instance_id, to_instance_id, now]` against the column list
`(instance, moving_since, moving_to)`, so the row is written with
`moving_since = to_instance_id` and `moving_to = now` — the embedding
reproduces this faithfully.  Finally become Moving with a daily next check.
From Moving: when a moving row with `moving_to = to_instance_id` exists,
increment `redirects_count` and promote to Moved (weekly) when the count
exceeds 7 and `moving_since` is later than a week ago, else stay daily; when
no such row matches, reset the moving row to the new target with count 1.
From Moved: only refresh the check datetimes with a weekly draw. -/
def mark_moved (now nextToday nextDaily nextWeekly : Int) (db : DB) (host toHost : String) :
    Option DB :=
  match db.instances.find? (fun r => r.hostname == host) with
  | none => none
  | some row =>
    match row.state with
    | .Discovered | .Alive | .Dying | .Dead =>
      let db1 := { db with
        dying := db.dying.filter (fun d => d.inst != row.id) }
      let db2 :=
        if db1.instances.any (fun r => r.hostname == toHost) then db1
        else
          { db1 with
            instances := db1.instances ++
              [{ id := db1.next_id, hostname := toHost, discovered_datetime := none,
                 discovered_via := none, state := .Discovered, last_check_datetime := none,
                 next_check_datetime := nextToday, check_started := none }],
            next_id := db1.next_id + 1 }
      match db2.instances.find? (fun r => r.hostname == toHost) with
      | none => none
      | some toRow =>
        if db2.moving.any (fun m => m.inst == row.id) then none
        else
          some { db2 with
            moving := db2.moving ++
              [{ inst := row.id, moving_since := (toRow.id : Int), redirects_count := 1,
                 moving_to := now }],
            instances := db2.instances.map (fun r =>
              if r.id == row.id then
                { r with
                  state := .Moving, last_check_datetime := some now,
                  next_check_datetime := nextDaily }
              else r) }
    | .Moving =>
      match db.instances.find? (fun r => r.hostname == toHost) with
      | none => none
      | some toRow =>
        let cnt := db.moving.countP (fun m => m.inst == row.id && m.moving_to == (toRow.id : Int))
        if 0 < cnt then
          let moving1 := db.moving.map (fun m =>
            if m.inst == row.id then { m with
              redirects_count := m.redirects_count + 1 } else m)
          match moving1.find? (fun m => m.inst == row.id) with
          | none => none
          | some m =>
            if 7 < m.redirects_count ∧ now - 604800 < m.moving_since then
              if db.moved.any (fun v => v.inst == row.id) then none
              else
                some { db with
                  moving := moving1.filter (fun x => x.inst != row.id),
                  moved := db.moved ++ [{ inst := row.id, moved_to := toRow.id }],
                  instances := db.instances.map (fun r =>
                    if r.id == row.id then
                      { r with
                        state := .Moved, last_check_datetime := some now,
                        next_check_datetime := nextWeekly }
                    else r) }
            else
              some { db with
                moving := moving1,
                instances := db.instances.map (fun r =>
                  if r.id == row.id then
                    { r with
                      last_check_datetime := some now, next_check_datetime := nextDaily }
                  else r) }
        else
          some { db with
            moving := db.moving.map (fun m =>
              if m.inst == row.id then
                { m with
                  moving_since := now, redirects_count := 1,
                  moving_to := (toRow.id : Int) }
              else m),
            instances := db.instances.map (fun r =>
              if r.id == row.id then
                { r with
                  last_check_datetime := some now, next_check_datetime := nextDaily }
              else r) }
    | .Moved =>
      some { db with
        instances := db.instances.map (fun r =>
          if r.id == row.id then
            { r with
              last_check_datetime := some now, next_check_datetime := nextWeekly }
          else r) }

/-- Embeds `add_instance` from src/db.rs: `INSERT OR IGNORE` of the hostname
with a `rand_datetime_today` schedule.  Never errors. -/
def add_instance (nextToday : Int) (db : DB) (host : String) : DB :=
  if db.instances.any (fun r => r.hostname == host) then db
  else
    { db with
      instances := db.instances ++
        [{ id := db.next_id, hostname := host, discovered_datetime := none,
           discovered_via := none, state := .Discovered, last_check_datetime := none,
           next_check_datetime := nextToday, check_started := none }],
      next_id := db.next_id + 1 }

/-- Embeds `reschedule` from src/db.rs: read the current state by hostname
(an error, hence rollback, when absent), draw the next check from the daily
cadence for Discovered, Alive, Dying and Moving and from the weekly cadence
for Dead and Moved, and update only `next_check_datetime` of the rows with
this hostname. -/
def reschedule (nextDaily nextWeekly : Int) (db : DB) (host : String) : Option DB :=
  match db.instances.find? (fun r => r.hostname == host) with
  | none => none
  | some row =>
    let next :=
      match row.state with
      | .Discovered => nextDaily
      | .Alive => nextDaily
      | .Dying => nextDaily
      | .Dead => nextWeekly
      | .Moving => nextDaily
      | .Moved => nextWeekly
    some { db with
      instances := db.instances.map (fun r =>
        if r.hostname == host then { r with
          next_check_datetime := next } else r) }

end Db

namespace OrchDb

/-- Embeds `add_instance` from src/orchestrator/db.rs: look up the source
instance id by hostname (an error, hence rollback, when absent), then
`INSERT OR IGNORE` the peer with `discovered_datetime = now`,
`discovered_via = source id` and a `rand_datetime_today` schedule.  When a
row with the peer hostname already exists nothing changes. -/
def add_instance (now nextToday : Int) (db : DB) (source host : String) : Option DB :=
  match db.instances.find? (fun r => r.hostname == source) with
  | none => none
  | some src =>
    if db.instances.any (fun r => r.hostname == host) then some db
    else
      some { db with
        instances := db.instances ++
          [{ id := db.next_id, hostname := host, discovered_datetime := some now,
             discovered_via := some src.id, state := .Discovered, last_check_datetime := none,
             next_check_datetime := nextToday, check_started := none }],
        next_id := db.next_id + 1 }

/-- Embeds `pick_next_instance` from src/orchestrator/db.rs: the query
`SELECT hostname FROM instances WHERE next_check_datetime < CURRENT_TIMESTAMP
AND check_started IS NULL` with `.optional()`.  The query has no ORDER BY
clause, so SQLite returns the first matching row of its table scan, which is
rowid order: `List.find?` on the row list. -/
def pick_next_instance (now : Int) (db : DB) : Option String :=
  (db.instances.find? (fun r =>
    decide (r.next_check_datetime < now ∧ r.check_started = none))).map
    (fun r => r.hostname)

/-- Embeds `disengage_previous_checks` from src/orchestrator/db.rs: set
`check_started` to NULL on every row where it is non-null (equivalently, on
every row). -/
def disengage_previous_checks (db : DB) : DB :=
  { db with
    instances := db.instances.map (fun r => { r with check_started := none }) }

/-- Embeds `start_checking` from src/orchestrator/db.rs. -/
def start_checking (now : Int) (db : DB) (host : String) : DB :=
  { db with
    instances := db.instances.map (fun r =>
      if r.hostname == host then { r with check_started := some now } else r) }

/-- Embeds `finish_checking` from src/orchestrator/db.rs. -/
def finish_checking (db : DB) (host : String) : DB :=
  { db with
    instances := db.instances.map (fun r =>
      if r.hostname == host then { r with check_started := none } else r) }

end OrchDb

namespace Orchestrator

/-- Embeds the startup sequence of `main` in src/orchestrator/mod.rs
(lines 25..39): `db::open()`, the busy timeout pragma (no data effect),
`db::init` and `db::reschedule_missed_checks`, where `db` is the crate-root
module src/db.rs.  No other store call happens before the first dispatch.
In particular `disengage_previous_checks` is not invoked. -/
def startup (now : Int) (fresh : Nat → Int) (db : DB) : DB :=
  Db.reschedule_missed_checks now fresh (Db.init now db)

end Orchestrator

namespace Ipc

/-- Modelled from the spec: the `state` line payloads of the probe IPC
protocol in section 4.D (`ipc::InstanceState` lives in src/ipc.rs, which is
not part of the source snapshot; its three variants are fixed by the spec
and by the exhaustive match in src/orchestrator/checker_handle.rs). -/
inductive InstanceState
  | Alive
  | Moving (toHost : String)
  | Moved (toHost : String)
  deriving DecidableEq, Repr

/-- Modelled from the spec: one parsed line of probe stdout, section 4.D
(`ipc::CheckerResponse`, a tagged union of a `state` line and a `peer`
line). -/
inductive CheckerResponse
  | State (state : InstanceState)
  | Peer (peer : String)
  deriving DecidableEq, Repr

end Ipc

namespace CheckerHandle

/-- One store call made by the checker-response handler, in order of
execution.  Used to observe which mutators
src/orchestrator/checker_handle.rs invokes on a given probe output. -/
inductive DbAction
  | MarkDead
  | MarkAlive
  | AddInstance (peer : String)
  | Reschedule
  | MarkMoved (toHost : String)
  deriving DecidableEq, Repr

/-- Embeds `process_peers` from src/orchestrator/checker_handle.rs: consume
the remaining lines; a `Peer` line yields `add_instance`, a `State` line
aborts with an error (the peers already seen stay added).  The boolean is
true when the function returned an error. -/
def process_peers : List Ipc.CheckerResponse → List DbAction × Bool
  | [] => ([], false)
  | .State _ :: _ => ([], true)
  | .Peer p :: rest =>
    let r := process_peers rest
    (.AddInstance p :: r.1, r.2)

/-- Embeds `process_checker_response` from
src/orchestrator/checker_handle.rs, abstracted over the already-parsed
stdout lines: no line at all means `mark_dead`; a first `Peer` line means
`mark_dead` followed by an error; `state=alive` means `mark_alive` then
`process_peers`; `state=moving` only reschedules; `state=moved` calls
`mark_moved`.  The database calls themselves are assumed to succeed, so the
boolean records exactly the protocol-violation errors. -/
def process_checker_response : List Ipc.CheckerResponse → List DbAction × Bool
  | [] => ([.MarkDead], false)
  | .Peer _ :: _ => ([.MarkDead], true)
  | .State .Alive :: rest =>
    let r := process_peers rest
    (.MarkAlive :: r.1, r.2)
  | .State (.Moving _) :: _ => ([.Reschedule], false)
  | .State (.Moved t) :: _ => ([.MarkMoved t], false)

/-- Whether a list of lines contains a `state` line. -/
def containsState (lines : List Ipc.CheckerResponse) : Bool :=
  lines.any (fun l => match l with | .State _ => true | .Peer _ => false)

end CheckerHandle

/-- Outcome of one invocation of the closure passed to the busy-retry
helpers of src/db.rs: success, the `SQLITE_BUSY` error recognized by
`is_sqlite_busy_error`, or any other error. -/
inductive RustResult (T : Type)
  | ok (t : T)
  | busyErr
  | otherErr
  deriving DecidableEq, Repr

namespace Retry

/-- The retry loop shared by the helpers of src/db.rs: `fuel` remaining loop
iterations, `k` invocations made so far.  The closure is modelled as a
function from the invocation index to its outcome.  Returns the final
result together with the total number of invocations of the closure. -/
def retryLoop (f : Nat → RustResult T) : Nat → Nat → RustResult T × Nat
  | 0, k => (f k, k + 1)
  | fuel + 1, k =>
    match f k with
    | .ok t => (.ok t, k + 1)
    | .otherErr => (.otherErr, k + 1)
    | .busyErr => retryLoop f fuel (k + 1)

/-- Embeds `on_sqlite_busy_retry` from src/db.rs: a `for _ in 0..100` loop
that returns the first success, propagates the first non-busy error, sleeps
a random 1..=49 ms after a busy error (the sleep has no data effect and is
not modelled), and after the loop calls the closure one final time,
returning whatever it produces. -/
def on_sqlite_busy_retry (f : Nat → RustResult T) : RustResult T × Nat :=
  retryLoop f 100 0

end Retry

/-- One call to a store mutator of src/db.rs, with the clock value and the
random schedule draws it consumes. -/
inductive Op
  | opAlive (host : String) (now nextDaily : Int)
  | opDead (host : String) (now nextDaily nextWeekly : Int)
  | opMoved (host toHost : String) (now nextToday nextDaily nextWeekly : Int)
  | opResched (host : String) (nextDaily nextWeekly : Int)

/-- Run one mutator against the database; an error rolls the transaction
back, leaving the database as it was. -/
def applyOp (db : DB) : Op → DB
  | .opAlive h n d => (Db.mark_alive n d db h).getD db
  | .opDead h n d w => (Db.mark_dead n d w db h).getD db
  | .opMoved h t n td d w => (Db.mark_moved n td d w db h t).getD db
  | .opResched h d w => (Db.reschedule d w db h).getD db

/-- Run a sequence of mutators. -/
def runOps (db : DB) (ops : List Op) : DB := ops.foldl applyOp db

/-- Number of `dying_state_data` rows of instance id `i`. -/
def dcount (db : DB) (i : Nat) : Nat := db.dying.countP (fun d => d.inst == i)

/-- Number of `moving_state_data` rows of instance id `i`. -/
def mvcount (db : DB) (i : Nat) : Nat := db.moving.countP (fun m => m.inst == i)

/-- Number of `moved_state_data` rows of instance id `i`. -/
def mdcount (db : DB) (i : Nat) : Nat := db.moved.countP (fun m => m.inst == i)

/-- Allowed number of `dying_state_data` rows in each state: one while
Dying, none otherwise. -/
def dBound : InstanceState → Nat
  | .Dying => 1
  | _ => 0

/-- Allowed number of `moving_state_data` rows in each state: one while
Moving, none otherwise. -/
def mvBound : InstanceState → Nat
  | .Moving => 1
  | _ => 0

/-- Allowed number of `moved_state_data` rows in each state: one while
Moved, none otherwise. -/
def mdBound : InstanceState → Nat
  | .Moved => 1
  | _ => 0

/-- The side-table discipline for one instance row.  Because the bound of
each table is 1 exactly in the matching state and 0 in every other state,
this says: at most one side-table row across the three tables, living in
the table that matches `state`, and no row at all in the Discovered, Alive
and Dead states. -/
def instOk (db : DB) (r : InstanceRow) : Prop :=
  dcount db r.id ≤ dBound r.state ∧
  mvcount db r.id ≤ mvBound r.state ∧
  mdcount db r.id ≤ mdBound r.state

/-- Every instance row obeys the side-table discipline. -/
def sideOk (db : DB) : Prop := ∀ r ∈ db.instances, instOk db r

/-- Structural well-formedness of the database: all instance ids and all
side-table instance references are below the next free surrogate id. -/
def wfDB (db : DB) : Prop :=
  (∀ r ∈ db.instances, r.id < db.next_id) ∧
  (∀ d ∈ db.dying, d.inst < db.next_id) ∧
  (∀ m ∈ db.moving, m.inst < db.next_id) ∧
  (∀ m ∈ db.moved, m.inst < db.next_id)

/-- The store invariant carried through mutator sequences. -/
def StoreInv (db : DB) : Prop := wfDB db ∧ sideOk db

instance (db : DB) (r : InstanceRow) : Decidable (instOk db r) :=
  instDecidableAnd

/-- Counting rows by an id projection: `DELETE ... WHERE proj = j` zeroes
the count at `j` and leaves every other count alone. -/
theorem countP_filter_ne {α : Type} (l : List α) (proj : α → Nat) (j i : Nat) :
    (l.filter (fun a => proj a != j)).countP (fun a => proj a == i) =
      if i = j then 0 else l.countP (fun a => proj a == i) := by
  rw [List.countP_filter]
  by_cases hij : i = j
  · subst hij
    rw [if_pos rfl, List.countP_eq_zero]
    intro a _
    simp only [Bool.and_eq_true, beq_iff_eq, bne_iff_ne, ne_eq]
    tauto
  · rw [if_neg hij]
    apply List.countP_congr
    intro a _
    simp only [Bool.and_eq_true, beq_iff_eq, bne_iff_ne, ne_eq, and_iff_left_iff_imp]
    intro h
    omega

/-- Counting rows by an id projection: an `UPDATE` that does not touch the
id column leaves every count alone. -/
theorem countP_map_preserve {α : Type} (l : List α) (g : α → α) (proj : α → Nat)
    (h : ∀ a, proj (g a) = proj a) (i : Nat) :
    (l.map g).countP (fun a => proj a == i) = l.countP (fun a => proj a == i) := by
  rw [List.countP_map]
  apply List.countP_congr
  intro a _
  simp [Function.comp, h a]

/-- Counting rows by an id projection: inserting one row bumps the count at
its id and leaves every other count alone. -/
theorem countP_append_single {α : Type} (l : List α) (x : α) (proj : α → Nat) (i : Nat) :
    (l ++ [x]).countP (fun a => proj a == i) =
      l.countP (fun a => proj a == i) + if proj x = i then 1 else 0 := by
  rw [List.countP_append]
  simp [List.countP_cons]

namespace Retry

/-- The loop makes at most `fuel + 1` further invocations. -/
theorem retryLoop_count_le {T : Type} (f : Nat → RustResult T) :
    ∀ fuel k, (retryLoop f fuel k).2 ≤ k + fuel + 1 := by
  intro fuel
  induction fuel with
  | zero =>
    intro k
    simp [retryLoop]
  | succ n ih =>
    intro k
    unfold retryLoop
    cases f k with
    | ok t => simp
    | otherErr => simp
    | busyErr =>
      calc (retryLoop f n (k + 1)).2 ≤ (k + 1) + n + 1 := ih (k + 1)
        _ ≤ k + (n + 1) + 1 := by omega

/-- If the first `n` invocations are busy and the invocation `n` is not,
the loop stops right there with that result, having invoked the closure
`n + 1` times. -/
theorem retryLoop_first {T : Type} (f : Nat → RustResult T) :
    ∀ (n fuel k : Nat), n ≤ fuel → (∀ m, m < n → f (k + m) = .busyErr) →
      f (k + n) ≠ .busyErr → retryLoop f fuel k = (f (k + n), k + n + 1) := by
  intro n
  induction n with
  | zero =>
    intro fuel k _ _ hlast
    cases fuel with
    | zero => simp [retryLoop]
    | succ m =>
      unfold retryLoop
      cases hf : f k with
      | ok t => simp [hf]
      | otherErr => simp [hf]
      | busyErr => exact absurd (by simpa using hf) (by simpa using hlast)
  | succ n ih =>
    intro fuel k hn hbusy hlast
    cases fuel with
    | zero => omega
    | succ fuel =>
      have hk : f k = .busyErr := by simpa using hbusy 0 (Nat.succ_pos n)
      unfold retryLoop
      rw [hk]
      have h1 : ∀ m, m < n → f (k + 1 + m) = .busyErr := by
        intro m hm
        have := hbusy (m + 1) (by omega)
        simpa [Nat.add_assoc, Nat.add_comm 1 m] using this
      have h2 : f (k + 1 + n) ≠ .busyErr := by
        have : k + 1 + n = k + (n + 1) := by omega
        rw [this]
        exact hlast
      have := ih fuel (k + 1) (by omega) h1 h2
      rw [this]
      have : k + 1 + n = k + (n + 1) := by omega
      rw [this]

end Retry

/-- Claim C9 (amended): the bounded busy-retry helper invokes the wrapped
closure at most 101 times (one initial attempt plus up to 100 retries); it
retries only after a database-busy error (sleeping a random short duration
between attempts, which has no data effect), returns the first successful
result, and propagates any non-busy error immediately.  The closure is a
function from invocation index to outcome; the second component of the
result counts the invocations made. -/
theorem c9_on_sqlite_busy_retry_bound {T : Type} (f : Nat → RustResult T) :
    (Retry.on_sqlite_busy_retry f).2 ≤ 101 ∧
    (∀ n t, n ≤ 100 → f n = .ok t → (∀ m, m < n → f m = .busyErr) →
      Retry.on_sqlite_busy_retry f = (.ok t, n + 1)) ∧
    (∀ n, n ≤ 100 → f n = .otherErr → (∀ m, m < n → f m = .busyErr) →
      Retry.on_sqlite_busy_retry f = (.otherErr, n + 1)) := by
  refine ⟨?_, ?_, ?_⟩
  · have := Retry.retryLoop_count_le f 100 0
    simpa [Retry.on_sqlite_busy_retry] using this
  · intro n t hn hok hbusy
    have := Retry.retryLoop_first f n 100 0 hn (by simpa using hbusy) (by simp [hok])
    simpa [Retry.on_sqlite_busy_retry, hok] using this
  · intro n hn hother hbusy
    have := Retry.retryLoop_first f n 100 0 hn (by simpa using hbusy) (by simp [hother])
    simpa [Retry.on_sqlite_busy_retry, hother] using this

/-- Witness for C9: a closure that is busy once and then succeeds is invoked
twice and its value is returned. -/
theorem c9_on_sqlite_busy_retry_bound_witness :
    Retry.on_sqlite_busy_retry (fun n => if n = 0 then RustResult.busyErr else .ok 7) =
      (.ok 7, 2) := by
  have h := (c9_on_sqlite_busy_retry_bound
    (fun n => if n = 0 then RustResult.busyErr else .ok (7 : Nat))).2.1 1 7
    (by omega) (by simp)
    (fun m hm => by
      have : m = 0 := by omega
      subst this
      simp)
  exact h

/-- Counterexample for C9 as stated: against a closure that always reports
a busy database, the helper invokes the closure 101 times, not at most
100 — the `for` loop makes 100 attempts and the final `f()` after the loop
is a 101st. -/
theorem c9_counterexample :
    (Retry.on_sqlite_busy_retry (fun _ => RustResult.busyErr (T := Unit))).2 = 101 ∧
    ¬ (Retry.on_sqlite_busy_retry (fun _ => RustResult.busyErr (T := Unit))).2 ≤ 100 := by
  constructor
  · decide
  · decide

/-- Claim C10: when a hostname has no row in `instances`, the three
outcome mutators fail at the initial id lookup and return an error; the
rusqlite transaction they opened is dropped without commit, so the database
rolls back unchanged (`none` is exactly the rolled-back-error result in
this embedding). -/
theorem c10_mutators_absent_host (db : DB) (host toHost : String)
    (now nextToday nextDaily nextWeekly : Int)
    (h : ∀ r ∈ db.instances, r.hostname ≠ host) :
    Db.mark_alive now nextDaily db host = none ∧
    Db.mark_dead now nextDaily nextWeekly db host = none ∧
    Db.mark_moved now nextToday nextDaily nextWeekly db host toHost = none := by
  have hf : db.instances.find? (fun r => r.hostname == host) = none := by
    rw [List.find?_eq_none]
    intro r hr
    simpa using h r hr
  refine ⟨?_, ?_, ?_⟩
  · simp [Db.mark_alive, hf]
  · simp [Db.mark_dead, hf]
  · simp [Db.mark_moved, hf]

/-- Witness for C10: a one-row database and a hostname not in it. -/
theorem c10_mutators_absent_host_witness :
    Db.mark_alive 1000 2000
      ⟨[⟨1, "y.example", none, none, .Discovered, none, 100, none⟩], [], [], [], 2⟩
      "absent.example" = none ∧
    Db.mark_dead 1000 2000 3000
      ⟨[⟨1, "y.example", none, none, .Discovered, none, 100, none⟩], [], [], [], 2⟩
      "absent.example" = none ∧
    Db.mark_moved 1000 1500 2000 3000
      ⟨[⟨1, "y.example", none, none, .Discovered, none, 100, none⟩], [], [], [], 2⟩
      "absent.example" "z.example" = none :=
  c10_mutators_absent_host
    ⟨[⟨1, "y.example", none, none, .Discovered, none, 100, none⟩], [], [], [], 2⟩
    "absent.example" "z.example" 1000 1500 2000 3000 (by decide)

namespace CheckerHandle

/-- The error flag of `process_peers` is set exactly when a `state` line
occurs among the peer lines. -/
theorem process_peers_err (lines : List Ipc.CheckerResponse) :
    (process_peers lines).2 = containsState lines := by
  induction lines with
  | nil => rfl
  | cons l rest ih =>
    cases l with
    | State s => rfl
    | Peer p => simpa [process_peers, containsState] using ih

/-- `process_peers` only ever calls `add_instance`. -/
theorem process_peers_no_mark_dead (lines : List Ipc.CheckerResponse) :
    DbAction.MarkDead ∉ (process_peers lines).1 := by
  induction lines with
  | nil => simp [process_peers]
  | cons l rest ih =>
    cases l with
    | State s => simp [process_peers]
    | Peer p => simpa [process_peers] using ih

end CheckerHandle

/-- Claim C4 (amended): when the probe emits zero stdout lines, the
orchestrator calls `mark_dead` and reports no error; when the first line is
a `peer` line, it calls `mark_dead` and returns an error; when a line after
an alive verdict is a `state` line, it returns an error, but the target has
already been marked Alive by that point and `mark_dead` is not called —
the peers read before the offending line remain added. -/
theorem c4_checker_protocol_violations :
    (CheckerHandle.process_checker_response [] = ([.MarkDead], false)) ∧
    (∀ p rest, CheckerHandle.process_checker_response (.Peer p :: rest) = ([.MarkDead], true)) ∧
    (∀ rest, CheckerHandle.containsState rest = true →
      (CheckerHandle.process_checker_response (.State .Alive :: rest)).2 = true ∧
      CheckerHandle.DbAction.MarkDead ∉
        (CheckerHandle.process_checker_response (.State .Alive :: rest)).1 ∧
      (CheckerHandle.process_checker_response (.State .Alive :: rest)).1.head? =
        some .MarkAlive) := by
  refine ⟨rfl, fun p rest => rfl, fun rest h => ⟨?_, ?_, ?_⟩⟩
  · show (CheckerHandle.process_peers rest).2 = true
    rw [CheckerHandle.process_peers_err]
    exact h
  · show CheckerHandle.DbAction.MarkDead ∉
      CheckerHandle.DbAction.MarkAlive :: (CheckerHandle.process_peers rest).1
    intro hmem
    rcases List.mem_cons.mp hmem with h1 | h1
    · cases h1
    · exact CheckerHandle.process_peers_no_mark_dead rest h1
  · rfl

/-- Witness for C4 (amended): concrete instantiations of the three cases;
in the third one the probe answers alive, names one peer, then violates the
protocol with a second state line. -/
theorem c4_checker_protocol_violations_witness :
    (CheckerHandle.process_checker_response [.Peer "b.example"] = ([.MarkDead], true)) ∧
    ((CheckerHandle.process_checker_response
        [.State .Alive, .Peer "b.example", .State .Alive]).2 = true ∧
      CheckerHandle.DbAction.MarkDead ∉
        (CheckerHandle.process_checker_response
          [.State .Alive, .Peer "b.example", .State .Alive]).1 ∧
      (CheckerHandle.process_checker_response
        [.State .Alive, .Peer "b.example", .State .Alive]).1.head? = some .MarkAlive) :=
  ⟨c4_checker_protocol_violations.2.1 "b.example" [],
    c4_checker_protocol_violations.2.2 [.Peer "b.example", .State .Alive] rfl⟩

/-- Counterexample for C4 as stated: the probe answers alive and then emits
a second `state` line.  The claim says the orchestrator marks the target
Dead, but the handler only calls `mark_alive` (the target stays Alive) and
returns the protocol error: `mark_dead` is never invoked. -/
theorem c4_counterexample :
    CheckerHandle.process_checker_response [.State .Alive, .State .Alive] =
      ([.MarkAlive], true) ∧
    CheckerHandle.DbAction.MarkDead ∉
      (CheckerHandle.process_checker_response [.State .Alive, .State .Alive]).1 := by
  constructor
  · rfl
  · decide

/-- Claim C2: evaluation of `mark_moved` at the failing input.  The
instance `y.example` (id 1) is Discovered; `mark_moved` at `now = 1000`
with a today draw 1500 and a daily draw 2000 moves it against target
`z.example`.  The target is correctly inserted as Discovered (id 2) and the
instance becomes Moving — but the `moving_state_data` row is written with
`moving_since = 2` (the id of `z.example`) and `moving_to = 1000` (the
clock value): the source passes `params![instance_id, to_instance_id, now]`
to the column list `(instance, moving_since, moving_to)`, swapping the last
two values, so `moving_to` does not hold the id of the target row. -/
theorem c2_mark_moved_failing_input :
    Db.mark_moved 1000 1500 2000 3000
      ⟨[⟨1, "y.example", none, none, .Discovered, none, 100, none⟩], [], [], [], 2⟩
      "y.example" "z.example" =
      some ⟨[⟨1, "y.example", none, none, .Moving, some 1000, 2000, none⟩,
             ⟨2, "z.example", none, none, .Discovered, none, 1500, none⟩],
            [], [⟨1, 2, 1, 1000⟩], [], 3⟩ ∧
    (1000 : Int) ≠ 2 := by
  constructor
  · rfl
  · decide

/-- Claim C6: evaluation of the startup sequence at the failing input.  A
database holds one instance whose `check_started` marker survived a crash
(`some 5`) and whose check is overdue.  After `init` and
`reschedule_missed_checks` — the whole pre-dispatch startup of
`main` in src/orchestrator/mod.rs — the marker is still `some 5`: nothing
in the startup path clears `check_started`; the clearing function
`disengage_previous_checks` exists in src/orchestrator/db.rs but is never
called.  The second conjunct shows that calling it would clear the
marker. -/
theorem c6_startup_keeps_check_started :
    Orchestrator.startup 100 (fun _ => 500)
      ⟨[⟨1, "y.example", none, none, .Discovered, none, 50, some 5⟩], [], [], [], 2⟩ =
      ⟨[⟨1, "y.example", none, none, .Discovered, none, 500, some 5⟩,
        ⟨2, "mastodon.social", none, none, .Discovered, none, 100, none⟩], [], [], [], 3⟩ ∧
    (OrchDb.disengage_previous_checks
      ⟨[⟨1, "y.example", none, none, .Discovered, none, 50, some 5⟩], [], [], [], 2⟩
      ).instances.all (fun r => r.check_started == none) = true := by
  constructor
  · rfl
  · rfl

/-- Counterexample for C5 as stated: two due instances, neither being
checked; `b.example` (next check at 100) is strictly earlier than
`a.example` (next check at 200), yet `pick_next_instance` at `now = 300`
returns `a.example` — the SQL query has no ORDER BY clause, so it returns
the first matching row in table order, not the one with the earliest
`next_check_datetime`. -/
theorem c5_counterexample :
    OrchDb.pick_next_instance 300
      ⟨[⟨1, "a.example", none, none, .Discovered, none, 200, none⟩,
        ⟨2, "b.example", none, none, .Discovered, none, 100, none⟩], [], [], [], 3⟩ =
      some "a.example" ∧
    some "a.example" ≠ some "b.example" ∧
    (100 : Int) < 200 := by
  refine ⟨rfl, ?_, by decide⟩
  intro h
  simp at h

/-- Claim C5 (amended): `pick_next_instance` returns the hostname of the
first row in table order among rows whose `check_started` is NULL and
whose `next_check_datetime` is earlier than now; it returns the empty
result exactly when no such row exists, and it never returns a hostname
whose row has `check_started` set. -/
theorem c5_pick_next_instance (now : Int) (db : DB) :
    (∀ h, OrchDb.pick_next_instance now db = some h →
      ∃ r ∈ db.instances, r.hostname = h ∧ r.check_started = none ∧
        r.next_check_datetime < now) ∧
    (OrchDb.pick_next_instance now db = none →
      ∀ r ∈ db.instances, r.check_started = none → ¬ r.next_check_datetime < now) := by
  constructor
  · intro h hpick
    unfold OrchDb.pick_next_instance at hpick
    cases hf : db.instances.find? (fun r =>
        decide (r.next_check_datetime < now ∧ r.check_started = none)) with
    | none => rw [hf] at hpick; cases hpick
    | some r =>
      rw [hf] at hpick
      have hmem := List.mem_of_find?_eq_some hf
      have hp := List.find?_some hf
      simp only [decide_eq_true_eq] at hp
      refine ⟨r, hmem, ?_, hp.2, hp.1⟩
      simpa using hpick
  · intro hpick r hmem hcs
    unfold OrchDb.pick_next_instance at hpick
    cases hf : db.instances.find? (fun r =>
        decide (r.next_check_datetime < now ∧ r.check_started = none)) with
    | none =>
      rw [List.find?_eq_none] at hf
      have := hf r hmem
      simp only [decide_eq_true_eq, not_and] at this
      intro hlt
      exact absurd hcs (by simpa using this hlt)
    | some x => rw [hf] at hpick; cases hpick

/-- Witness for C5 (amended): applying the theorem at a concrete database
where the pick succeeds. -/
theorem c5_pick_next_instance_witness :
    ∃ r ∈ ([⟨1, "a.example", none, none, .Discovered, none, 200, none⟩,
            ⟨2, "b.example", none, none, .Discovered, none, 100, none⟩] : List InstanceRow),
      r.hostname = "a.example" ∧ r.check_started = none ∧ r.next_check_datetime < 300 :=
  (c5_pick_next_instance 300
    ⟨[⟨1, "a.example", none, none, .Discovered, none, 200, none⟩,
      ⟨2, "b.example", none, none, .Discovered, none, 100, none⟩], [], [], [], 3⟩).1
    "a.example" rfl

/-- Claim C1: for an instance in the Dying state (with its dying side row,
which the Dying state always carries), `mark_dead` increments
`failed_checks_count`; when the new count exceeds 7 and `dying_since` is
later than `now` minus one week (604800 s), the instance becomes Dead with
a weekly next check and its `dying_state_data` row is deleted; otherwise it
stays Dying (the state column is untouched) with a daily next check and the
incremented, never reset, counter. -/
theorem c1_mark_dead_dying (db : DB) (host : String) (row : InstanceRow) (d0 : DyingRow)
    (now nextDaily nextWeekly : Int)
    (hfind : db.instances.find? (fun r => r.hostname == host) = some row)
    (hstate : row.state = .Dying)
    (hd : db.dying.find? (fun d => d.inst == row.id) = some d0) :
    (7 < d0.failed_checks_count + 1 ∧ now - 604800 < d0.dying_since →
      Db.mark_dead now nextDaily nextWeekly db host = some
        { db with
          dying := (db.dying.map (fun d =>
            if d.inst == row.id then { d with
              failed_checks_count := d.failed_checks_count + 1 }
            else d)).filter (fun x => x.inst != row.id),
          instances := db.instances.map (fun r =>
            if r.id == row.id then
              { r with
                state := .Dead, last_check_datetime := some now,
                next_check_datetime := nextWeekly }
            else r) }) ∧
    (¬ (7 < d0.failed_checks_count + 1 ∧ now - 604800 < d0.dying_since) →
      Db.mark_dead now nextDaily nextWeekly db host = some
        { db with
          dying := db.dying.map (fun d =>
            if d.inst == row.id then { d with
              failed_checks_count := d.failed_checks_count + 1 }
            else d),
          instances := db.instances.map (fun r =>
            if r.id == row.id then
              { r with
                last_check_datetime := some now, next_check_datetime := nextDaily }
            else r) }) := by
  have hd0 := List.find?_some hd
  have hpg : ((fun d : DyingRow => d.inst == row.id) ∘ (fun d =>
      if d.inst == row.id then { d with
        failed_checks_count := d.failed_checks_count + 1 }
      else d)) = (fun d : DyingRow => d.inst == row.id) := by
    funext d
    by_cases hdi : d.inst = row.id <;> simp [Function.comp, hdi]
  have hmap : (db.dying.map (fun d =>
      if d.inst == row.id then { d with
        failed_checks_count := d.failed_checks_count + 1 }
      else d)).find? (fun d => d.inst == row.id) =
      some { d0 with failed_checks_count := d0.failed_checks_count + 1 } := by
    have hd0eq : d0.inst = row.id := by simpa using hd0
    rw [List.find?_map, hpg, hd]
    simp [hd0eq]
  constructor
  · intro hcond
    simp only [Db.mark_dead, hfind, hstate, hmap]
    rw [if_pos (by simpa using hcond)]
  · intro hcond
    simp only [Db.mark_dead, hfind, hstate, hmap]
    rw [if_neg (by simpa using hcond)]

/-- Witness for C1: a Dying instance at its 8th consecutive failure within
the week is promoted to Dead, its dying row deleted, with the weekly next
check; the theorem applied at this concrete database computes the result.
-/
theorem c1_mark_dead_dying_witness :
    Db.mark_dead 1000 2000 3000
      ⟨[⟨1, "y.example", none, none, .Dying, none, 100, none⟩],
        [⟨1, 900, 7⟩], [], [], 2⟩ "y.example" =
      some ⟨[⟨1, "y.example", none, none, .Dead, some 1000, 3000, none⟩],
            [], [], [], 2⟩ := by
  have h := (c1_mark_dead_dying
    ⟨[⟨1, "y.example", none, none, .Dying, none, 100, none⟩], [⟨1, 900, 7⟩], [], [], 2⟩
    "y.example" ⟨1, "y.example", none, none, .Dying, none, 100, none⟩ ⟨1, 900, 7⟩
    1000 2000 3000 rfl rfl rfl).1 (by decide)
  simpa using h

/-- Claim C7: `reschedule` looks up the current state and updates only
`next_check_datetime` of the instance — the daily draw for Discovered,
Alive, Dying and Moving, the weekly draw for Dead and Moved.  The side
tables, the surrogate-id counter, and every other column of every instance
row (including `state`) are unchanged. -/
theorem c7_reschedule_frame (db : DB) (host : String) (row : InstanceRow)
    (nextDaily nextWeekly : Int)
    (hfind : db.instances.find? (fun r => r.hostname == host) = some row) :
    ∃ db1, Db.reschedule nextDaily nextWeekly db host = some db1 ∧
      db1.dying = db.dying ∧ db1.moving = db.moving ∧ db1.moved = db.moved ∧
      db1.next_id = db.next_id ∧
      db1.instances = db.instances.map (fun r =>
        if r.hostname == host then
          { r with
            next_check_datetime :=
              match row.state with
              | .Discovered => nextDaily
              | .Alive => nextDaily
              | .Dying => nextDaily
              | .Dead => nextWeekly
              | .Moving => nextDaily
              | .Moved => nextWeekly }
        else r) := by
  refine ⟨{ db with
    instances := db.instances.map (fun r =>
      if r.hostname == host then
        { r with
          next_check_datetime :=
            match row.state with
            | .Discovered => nextDaily
            | .Alive => nextDaily
            | .Dying => nextDaily
            | .Dead => nextWeekly
            | .Moving => nextDaily
            | .Moved => nextWeekly }
      else r) }, ?_, rfl, rfl, rfl, rfl, rfl⟩
  simp only [Db.reschedule, hfind]

/-- Witness for C7: a Dead instance is rescheduled with the weekly draw and
nothing else changes. -/
theorem c7_reschedule_frame_witness :
    ∃ db1, Db.reschedule 2000 3000
      ⟨[⟨1, "y.example", none, none, .Dead, some 10, 100, none⟩], [], [], [], 2⟩
      "y.example" = some db1 ∧
      db1.dying = [] ∧ db1.moving = [] ∧ db1.moved = [] ∧ db1.next_id = 2 ∧
      db1.instances = [⟨1, "y.example", none, none, .Dead, some 10, 3000, none⟩] := by
  have h := c7_reschedule_frame
    ⟨[⟨1, "y.example", none, none, .Dead, some 10, 100, none⟩], [], [], [], 2⟩
    "y.example" ⟨1, "y.example", none, none, .Dead, some 10, 100, none⟩ 2000 3000 rfl
  simpa using h

/-- Claim C8: `add_instance` is idempotent.  For a source instance that has
a row (the source is always the just-probed instance) and a database where
hostnames are unique, one call leaves exactly one row for the peer; when
the peer was absent the new row records `discovered_via` as the id of the
source row; and any further call with the same pair, whatever clock value
and schedule draw it uses, returns the database unchanged — in particular
it never touches `discovered_via` again. -/
theorem c8_add_instance_idempotent (db : DB) (source peer : String) (src : InstanceRow)
    (now1 today1 : Int)
    (hsrc : db.instances.find? (fun r => r.hostname == source) = some src)
    (huniq : db.instances.countP (fun r => r.hostname == peer) ≤ 1) :
    ∃ db1, OrchDb.add_instance now1 today1 db source peer = some db1 ∧
      db1.instances.countP (fun r => r.hostname == peer) = 1 ∧
      (∀ now2 today2, OrchDb.add_instance now2 today2 db1 source peer = some db1) ∧
      (db.instances.any (fun r => r.hostname == peer) = false →
        ∃ r ∈ db1.instances, r.hostname = peer ∧ r.discovered_via = some src.id) ∧
      (db.instances.any (fun r => r.hostname == peer) = true → db1 = db) := by
  cases hany : db.instances.any (fun r => r.hostname == peer) with
  | true =>
    refine ⟨db, ?_, ?_, ?_, ?_, fun _ => rfl⟩
    · simp [OrchDb.add_instance, hsrc, hany]
    · have hpos : 0 < db.instances.countP (fun r => r.hostname == peer) := by
        rw [List.countP_pos_iff]
        simpa using List.any_eq_true.mp hany
      omega
    · intro now2 today2
      simp [OrchDb.add_instance, hsrc, hany]
    · intro hcontra
      simp at hcontra
  | false =>
    set newRow : InstanceRow :=
      { id := db.next_id, hostname := peer, discovered_datetime := some now1,
        discovered_via := some src.id, state := .Discovered, last_check_datetime := none,
        next_check_datetime := today1, check_started := none } with hnew
    refine ⟨{ db with instances := db.instances ++ [newRow], next_id := db.next_id + 1 },
      ?_, ?_, ?_, ?_, ?_⟩
    · simp [OrchDb.add_instance, hsrc, hany, hnew]
    · have hzero : db.instances.countP (fun r => r.hostname == peer) = 0 := by
        rw [List.countP_eq_zero]
        intro r hr
        have := List.any_eq_false.mp hany r hr
        exact this
      rw [List.countP_append, hzero]
      simp [hnew]
    · intro now2 today2
      have hsrc2 : (db.instances ++ [newRow]).find? (fun r => r.hostname == source) =
          some src := by
        rw [List.find?_append, hsrc]
        rfl
      have hany2 : (db.instances ++ [newRow]).any (fun r => r.hostname == peer) = true := by
        rw [List.any_append]
        simp [hnew]
      simp [OrchDb.add_instance, hsrc2, hany2]
    · intro _
      exact ⟨newRow, by simp, by simp [hnew], by simp [hnew]⟩
    · intro hcontra
      simp at hcontra

/-- Witness for C8: inserting `b.example` discovered via `a.example` (id 1)
and checking the count, the recorded `discovered_via`, and that a repeated
call changes nothing. -/
theorem c8_add_instance_idempotent_witness :
    ∃ db1, OrchDb.add_instance 1000 1500
      ⟨[⟨1, "a.example", none, none, .Alive, some 10, 100, none⟩], [], [], [], 2⟩
      "a.example" "b.example" = some db1 ∧
      db1.instances.countP (fun r => r.hostname == "b.example") = 1 ∧
      (∀ now2 today2, OrchDb.add_instance now2 today2 db1 "a.example" "b.example" = some db1) ∧
      (([⟨1, "a.example", none, none, .Alive, some 10, 100, none⟩] :
          List InstanceRow).any (fun r => r.hostname == "b.example") = false →
        ∃ r ∈ db1.instances, r.hostname = "b.example" ∧ r.discovered_via = some 1) ∧
      (([⟨1, "a.example", none, none, .Alive, some 10, 100, none⟩] :
          List InstanceRow).any (fun r => r.hostname == "b.example") = true →
        db1 = ⟨[⟨1, "a.example", none, none, .Alive, some 10, 100, none⟩], [], [], [], 2⟩) :=
  c8_add_instance_idempotent
    ⟨[⟨1, "a.example", none, none, .Alive, some 10, 100, none⟩], [], [], [], 2⟩
    "a.example" "b.example" ⟨1, "a.example", none, none, .Alive, some 10, 100, none⟩
    1000 1500 rfl (by decide)

theorem dcount_mk (I : List InstanceRow) (D : List DyingRow) (M : List MovingRow)
    (V : List MovedRow) (n : Nat) (i : Nat) :
    dcount ⟨I, D, M, V, n⟩ i = D.countP (fun d => d.inst == i) := rfl

theorem mvcount_mk (I : List InstanceRow) (D : List DyingRow) (M : List MovingRow)
    (V : List MovedRow) (n : Nat) (i : Nat) :
    mvcount ⟨I, D, M, V, n⟩ i = M.countP (fun m => m.inst == i) := rfl

theorem mdcount_mk (I : List InstanceRow) (D : List DyingRow) (M : List MovingRow)
    (V : List MovedRow) (n : Nat) (i : Nat) :
    mdcount ⟨I, D, M, V, n⟩ i = V.countP (fun m => m.inst == i) := rfl

theorem dying_delete (l : List DyingRow) (j i : Nat) :
    (l.filter (fun d => d.inst != j)).countP (fun d => d.inst == i) =
      if i = j then 0 else l.countP (fun d => d.inst == i) :=
  countP_filter_ne l (fun d => d.inst) j i

theorem moving_delete (l : List MovingRow) (j i : Nat) :
    (l.filter (fun m => m.inst != j)).countP (fun m => m.inst == i) =
      if i = j then 0 else l.countP (fun m => m.inst == i) :=
  countP_filter_ne l (fun m => m.inst) j i

theorem moved_delete (l : List MovedRow) (j i : Nat) :
    (l.filter (fun m => m.inst != j)).countP (fun m => m.inst == i) =
      if i = j then 0 else l.countP (fun m => m.inst == i) :=
  countP_filter_ne l (fun m => m.inst) j i

theorem dying_insert (l : List DyingRow) (x : DyingRow) (i : Nat) :
    (l ++ [x]).countP (fun d => d.inst == i) =
      l.countP (fun d => d.inst == i) + if x.inst = i then 1 else 0 :=
  countP_append_single l x (fun d => d.inst) i

theorem moving_insert (l : List MovingRow) (x : MovingRow) (i : Nat) :
    (l ++ [x]).countP (fun m => m.inst == i) =
      l.countP (fun m => m.inst == i) + if x.inst = i then 1 else 0 :=
  countP_append_single l x (fun m => m.inst) i

theorem moved_insert (l : List MovedRow) (x : MovedRow) (i : Nat) :
    (l ++ [x]).countP (fun m => m.inst == i) =
      l.countP (fun m => m.inst == i) + if x.inst = i then 1 else 0 :=
  countP_append_single l x (fun m => m.inst) i

theorem dying_update (l : List DyingRow) (g : DyingRow → DyingRow)
    (h : ∀ d, (g d).inst = d.inst) (i : Nat) :
    (l.map g).countP (fun d => d.inst == i) = l.countP (fun d => d.inst == i) :=
  countP_map_preserve l g (fun d => d.inst) h i

theorem moving_update (l : List MovingRow) (g : MovingRow → MovingRow)
    (h : ∀ m, (g m).inst = m.inst) (i : Nat) :
    (l.map g).countP (fun m => m.inst == i) = l.countP (fun m => m.inst == i) :=
  countP_map_preserve l g (fun m => m.inst) h i

/-- A count keyed at an id at or above every id occurring in the list is
zero. -/
theorem countP_zero_of_lt {α : Type} (l : List α) (proj : α → Nat) (n i : Nat)
    (h : ∀ a ∈ l, proj a < n) (hi : n ≤ i) :
    l.countP (fun a => proj a == i) = 0 := by
  rw [List.countP_eq_zero]
  intro a ha
  have := h a ha
  simp only [beq_iff_eq]
  omega

/-- Transfer the side-table discipline of a row across a database change
that does not increase the counts at its id and does not change its state
or id. -/
theorem instOk_transfer {db1 db2 : DB} {r1 r2 : InstanceRow}
    (hst : r2.state = r1.state) (hid : r2.id = r1.id)
    (hd : dcount db2 r2.id ≤ dcount db1 r1.id)
    (hmv : mvcount db2 r2.id ≤ mvcount db1 r1.id)
    (hmd : mdcount db2 r2.id ≤ mdcount db1 r1.id)
    (h : instOk db1 r1) : instOk db2 r2 := by
  obtain ⟨h1, h2, h3⟩ := h
  refine ⟨?_, ?_, ?_⟩
  · rw [hst]
    exact le_trans hd h1
  · rw [hst]
    exact le_trans hmv h2
  · rw [hst]
    exact le_trans hmd h3

/-- `reschedule` preserves the store invariant: it only rewrites
`next_check_datetime`. -/
theorem inv_reschedule (nextDaily nextWeekly : Int) (db : DB) (host : String)
    (hinv : StoreInv db) :
    StoreInv ((Db.reschedule nextDaily nextWeekly db host).getD db) := by
  obtain ⟨⟨hw1, hw2, hw3, hw4⟩, hside⟩ := hinv
  cases hfind : db.instances.find? (fun r => r.hostname == host) with
  | none =>
    simp only [Db.reschedule, hfind, Option.getD_none]
    exact ⟨⟨hw1, hw2, hw3, hw4⟩, hside⟩
  | some row =>
    simp only [Db.reschedule, hfind, Option.getD_some]
    refine ⟨⟨?_, hw2, hw3, hw4⟩, ?_⟩
    · intro r hr
      simp only [List.mem_map] at hr
      obtain ⟨a, ha, rfl⟩ := hr
      by_cases hah : (a.hostname == host) = true
      · rw [if_pos hah]
        exact hw1 a ha
      · rw [if_neg hah]
        exact hw1 a ha
    · intro r' hr'
      simp only [List.mem_map] at hr'
      obtain ⟨a, ha, rfl⟩ := hr'
      have hok := hside a ha
      by_cases hah : (a.hostname == host) = true
      · rw [if_pos hah]
        exact hok
      · rw [if_neg hah]
        exact hok

/-- `mark_alive` preserves the store invariant: every side row of the
instance is deleted and the state becomes Alive. -/
theorem inv_mark_alive (now nextDaily : Int) (db : DB) (host : String)
    (hinv : StoreInv db) :
    StoreInv ((Db.mark_alive now nextDaily db host).getD db) := by
  obtain ⟨⟨hw1, hw2, hw3, hw4⟩, hside⟩ := hinv
  cases hfind : db.instances.find? (fun r => r.hostname == host) with
  | none =>
    simp only [Db.mark_alive, hfind, Option.getD_none]
    exact ⟨⟨hw1, hw2, hw3, hw4⟩, hside⟩
  | some row =>
    simp only [Db.mark_alive, hfind, Option.getD_some]
    refine ⟨⟨?_, ?_, ?_, ?_⟩, ?_⟩
    · intro r hr
      simp only [List.mem_map] at hr
      obtain ⟨a, ha, rfl⟩ := hr
      by_cases hai : (a.id == row.id) = true
      · rw [if_pos hai]
        exact hw1 a ha
      · rw [if_neg hai]
        exact hw1 a ha
    · intro d hd
      exact hw2 d (List.mem_of_mem_filter hd)
    · intro m hm
      exact hw3 m (List.mem_of_mem_filter hm)
    · intro v hv
      exact hw4 v (List.mem_of_mem_filter hv)
    · intro r' hr'
      simp only [List.mem_map] at hr'
      obtain ⟨a, ha, rfl⟩ := hr'
      have hok := hside a ha
      by_cases hai : (a.id == row.id) = true
      · rw [if_pos hai]
        have haid : a.id = row.id := by simpa using hai
        refine ⟨?_, ?_, ?_⟩ <;>
          simp only [dcount_mk, mvcount_mk, mdcount_mk, dying_delete, moving_delete,
            moved_delete, haid, if_pos rfl] <;>
          simp [dBound, mvBound, mdBound]
      · rw [if_neg hai]
        have haid : ¬ a.id = row.id := by simpa using hai
        refine instOk_transfer rfl rfl ?_ ?_ ?_ hok <;>
          simp only [dcount_mk, mvcount_mk, mdcount_mk, dying_delete, moving_delete,
            moved_delete, if_neg haid] <;>
          exact le_refl _

/-- `mark_dead` preserves the store invariant in every branch. -/
theorem inv_mark_dead (now nextDaily nextWeekly : Int) (db : DB) (host : String)
    (hinv : StoreInv db) :
    StoreInv ((Db.mark_dead now nextDaily nextWeekly db host).getD db) := by
  obtain ⟨⟨hw1, hw2, hw3, hw4⟩, hside⟩ := hinv
  cases hfind : db.instances.find? (fun r => r.hostname == host) with
  | none =>
    simp only [Db.mark_dead, hfind, Option.getD_none]
    exact ⟨⟨hw1, hw2, hw3, hw4⟩, hside⟩
  | some row =>
    have hrowmem := List.mem_of_find?_eq_some hfind
    have hrowOk := hside row hrowmem
    cases hstate : row.state
    case Dying =>
      have hpg : ((fun d : DyingRow => d.inst == row.id) ∘ (fun d =>
          if (d.inst == row.id) = true then { d with
            failed_checks_count := d.failed_checks_count + 1 }
          else d)) = (fun d : DyingRow => d.inst == row.id) := by
        funext d
        by_cases hdi : d.inst = row.id <;> simp [Function.comp, hdi]
      have hginst : ∀ d : DyingRow, ((fun d : DyingRow =>
          if (d.inst == row.id) = true then { d with
            failed_checks_count := d.failed_checks_count + 1 }
          else d) d).inst = d.inst := by
        intro d
        dsimp only
        split <;> rfl
      cases hfd : db.dying.find? (fun d => d.inst == row.id) with
      | none =>
        have hm : (db.dying.map (fun d =>
            if (d.inst == row.id) = true then { d with
              failed_checks_count := d.failed_checks_count + 1 }
            else d)).find? (fun d => d.inst == row.id) = none := by
          rw [List.find?_map, hpg, hfd]
          rfl
        simp only [Db.mark_dead, hfind, hstate, hm, Option.getD_none]
        exact ⟨⟨hw1, hw2, hw3, hw4⟩, hside⟩
      | some d0 =>
        have hd0 : d0.inst = row.id := by simpa using List.find?_some hfd
        have hm : (db.dying.map (fun d =>
            if (d.inst == row.id) = true then { d with
              failed_checks_count := d.failed_checks_count + 1 }
            else d)).find? (fun d => d.inst == row.id) =
            some { d0 with failed_checks_count := d0.failed_checks_count + 1 } := by
          rw [List.find?_map, hpg, hfd]
          simp [hd0]
        have hmv0 : mvcount db row.id = 0 := by
          have h2 := hrowOk.2.1
          rw [hstate] at h2
          simpa [mvBound] using h2
        have hmd0 : mdcount db row.id = 0 := by
          have h3 := hrowOk.2.2
          rw [hstate] at h3
          simpa [mdBound] using h3
        simp only [Db.mark_dead, hfind, hstate, hm, Option.getD_some]
        by_cases hcond : 7 < d0.failed_checks_count + 1 ∧ now - 604800 < d0.dying_since
        · rw [if_pos hcond]
          simp only [Option.getD_some]
          refine ⟨⟨?_, ?_, hw3, hw4⟩, ?_⟩
          · intro r hr
            simp only [List.mem_map] at hr
            obtain ⟨a, ha, rfl⟩ := hr
            by_cases hai : (a.id == row.id) = true
            · rw [if_pos hai]
              exact hw1 a ha
            · rw [if_neg hai]
              exact hw1 a ha
          · intro d hd
            have hmem := List.mem_of_mem_filter hd
            simp only [List.mem_map] at hmem
            obtain ⟨a, ha, rfl⟩ := hmem
            rw [hginst a]
            exact hw2 a ha
          · intro r' hr'
            simp only [List.mem_map] at hr'
            obtain ⟨a, ha, rfl⟩ := hr'
            have hok := hside a ha
            have hdc : ∀ i, dcount { db with
                dying := (db.dying.map (fun d =>
                  if (d.inst == row.id) = true then { d with
                    failed_checks_count := d.failed_checks_count + 1 }
                  else d)).filter (fun x => x.inst != row.id),
                instances := db.instances.map (fun r =>
                  if (r.id == row.id) = true then
                    { r with
                      state := .Dead, last_check_datetime := some now,
                      next_check_datetime := nextWeekly }
                  else r) } i = if i = row.id then 0 else dcount db i := by
              intro i
              rw [dcount_mk, dying_delete, dying_update _ _ hginst]
              rfl
            by_cases hai : (a.id == row.id) = true
            · rw [if_pos hai]
              have haid : a.id = row.id := by simpa using hai
              refine ⟨?_, ?_, ?_⟩
              · rw [hdc]
                simp [haid, dBound]
              · show mvcount db _ ≤ _
                simp [haid, hmv0, mvBound]
              · show mdcount db _ ≤ _
                simp [haid, hmd0, mdBound]
            · rw [if_neg hai]
              have haid : ¬ a.id = row.id := by simpa using hai
              refine instOk_transfer rfl rfl ?_ ?_ ?_ hok
              · rw [hdc]
                simp [haid]
              · exact le_refl _
              · exact le_refl _
        · rw [if_neg hcond]
          simp only [Option.getD_some]
          refine ⟨⟨?_, ?_, hw3, hw4⟩, ?_⟩
          · intro r hr
            simp only [List.mem_map] at hr
            obtain ⟨a, ha, rfl⟩ := hr
            by_cases hai : (a.id == row.id) = true
            · rw [if_pos hai]
              exact hw1 a ha
            · rw [if_neg hai]
              exact hw1 a ha
          · intro d hd
            simp only [List.mem_map] at hd
            obtain ⟨a, ha, rfl⟩ := hd
            rw [hginst a]
            exact hw2 a ha
          · intro r' hr'
            simp only [List.mem_map] at hr'
            obtain ⟨a, ha, rfl⟩ := hr'
            have hok := hside a ha
            have hdc : ∀ i, dcount { db with
                dying := db.dying.map (fun d =>
                  if (d.inst == row.id) = true then { d with
                    failed_checks_count := d.failed_checks_count + 1 }
                  else d),
                instances := db.instances.map (fun r =>
                  if (r.id == row.id) = true then
                    { r with
                      last_check_datetime := some now, next_check_datetime := nextDaily }
                  else r) } i = dcount db i := by
              intro i
              rw [dcount_mk, dying_update _ _ hginst]
              rfl
            by_cases hai : (a.id == row.id) = true
            · rw [if_pos hai]
              refine instOk_transfer rfl rfl ?_ ?_ ?_ hok
              · rw [hdc]
              · exact le_refl _
              · exact le_refl _
            · rw [if_neg hai]
              refine instOk_transfer rfl rfl ?_ ?_ ?_ hok
              · rw [hdc]
              · exact le_refl _
              · exact le_refl _
    case Dead =>
      simp only [Db.mark_dead, hfind, hstate, Option.getD_some]
      refine ⟨⟨?_, hw2, hw3, hw4⟩, ?_⟩
      · intro r hr
        simp only [List.mem_map] at hr
        obtain ⟨a, ha, rfl⟩ := hr
        by_cases hai : (a.id == row.id) = true
        · rw [if_pos hai]
          exact hw1 a ha
        · rw [if_neg hai]
          exact hw1 a ha
      · intro r' hr'
        simp only [List.mem_map] at hr'
        obtain ⟨a, ha, rfl⟩ := hr'
        have hok := hside a ha
        by_cases hai : (a.id == row.id) = true
        · rw [if_pos hai]
          exact hok
        · rw [if_neg hai]
          exact hok
    all_goals
      by_cases hg : (db.dying.any (fun d => d.inst == row.id)) = true
      · simp only [Db.mark_dead, hfind, hstate]
        rw [if_pos hg]
        simp only [Option.getD_none]
        exact ⟨⟨hw1, hw2, hw3, hw4⟩, hside⟩
      · have hg0 : dcount db row.id = 0 := by
          unfold dcount
          rw [List.countP_eq_zero]
          intro d hd
          rw [Bool.not_eq_true] at hg
          exact List.any_eq_false.mp hg d hd
        simp only [Db.mark_dead, hfind, hstate]
        rw [if_neg hg]
        simp only [Option.getD_some]
        refine ⟨⟨?_, ?_, ?_, ?_⟩, ?_⟩
        · intro r hr
          simp only [List.mem_map] at hr
          obtain ⟨a, ha, rfl⟩ := hr
          by_cases hai : (a.id == row.id) = true
          · rw [if_pos hai]
            exact hw1 a ha
          · rw [if_neg hai]
            exact hw1 a ha
        · intro d hd
          rcases List.mem_append.mp hd with hda | hdx
          · exact hw2 d hda
          · have : d = ⟨row.id, now, 1⟩ := by simpa using hdx
            rw [this]
            exact hw1 row hrowmem
        · intro m hm
          exact hw3 m (List.mem_of_mem_filter hm)
        · intro v hv
          exact hw4 v (List.mem_of_mem_filter hv)
        · intro r' hr'
          simp only [List.mem_map] at hr'
          obtain ⟨a, ha, rfl⟩ := hr'
          have hok := hside a ha
          have hdc : ∀ i, dcount { db with
              moving := db.moving.filter (fun m => m.inst != row.id),
              moved := db.moved.filter (fun m => m.inst != row.id),
              dying := db.dying ++ [⟨row.id, now, 1⟩],
              instances := db.instances.map (fun r =>
                if (r.id == row.id) = true then
                  { r with
                    state := .Dying, last_check_datetime := some now,
                    next_check_datetime := nextDaily }
                else r) } i = dcount db i + if row.id = i then 1 else 0 := by
            intro i
            rw [dcount_mk, dying_insert]
            rfl
          by_cases hai : (a.id == row.id) = true
          · rw [if_pos hai]
            have haid : a.id = row.id := by simpa using hai
            refine ⟨?_, ?_, ?_⟩
            · rw [hdc]
              simp [haid, hg0, dBound]
            · show (db.moving.filter (fun m => m.inst != row.id)).countP _ ≤ _
              rw [moving_delete]
              simp [haid, mvBound]
            · show (db.moved.filter (fun m => m.inst != row.id)).countP _ ≤ _
              rw [moved_delete]
              simp [haid, mdBound]
          · rw [if_neg hai]
            have haid : ¬ a.id = row.id := by simpa using hai
            refine instOk_transfer rfl rfl ?_ ?_ ?_ hok
            · rw [hdc, if_neg (fun h => haid h.symm)]
              simp
            · show (db.moving.filter (fun m => m.inst != row.id)).countP _ ≤ _
              rw [moving_delete, if_neg haid]
              exact le_refl _
            · show (db.moved.filter (fun m => m.inst != row.id)).countP _ ≤ _
              rw [moved_delete, if_neg haid]
              exact le_refl _

/-- `mark_moved` preserves the store invariant in every branch. -/
theorem inv_mark_moved (now nextToday nextDaily nextWeekly : Int) (db : DB)
    (host toHost : String) (hinv : StoreInv db) :
    StoreInv ((Db.mark_moved now nextToday nextDaily nextWeekly db host toHost).getD db) := by
  obtain ⟨⟨hw1, hw2, hw3, hw4⟩, hside⟩ := hinv
  cases hfind : db.instances.find? (fun r => r.hostname == host) with
  | none =>
    simp only [Db.mark_moved, hfind, Option.getD_none]
    exact ⟨⟨hw1, hw2, hw3, hw4⟩, hside⟩
  | some row =>
    have hrowmem := List.mem_of_find?_eq_some hfind
    have hrowOk := hside row hrowmem
    cases hstate : row.state
    case Moving =>
      cases hfto : db.instances.find? (fun r => r.hostname == toHost) with
      | none =>
        simp only [Db.mark_moved, hfind, hstate, hfto, Option.getD_none]
        exact ⟨⟨hw1, hw2, hw3, hw4⟩, hside⟩
      | some toRow =>
        have hpg : ((fun m : MovingRow => m.inst == row.id) ∘ (fun m =>
            if (m.inst == row.id) = true then { m with
              redirects_count := m.redirects_count + 1 }
            else m)) = (fun m : MovingRow => m.inst == row.id) := by
          funext m
          by_cases hmi : m.inst = row.id <;> simp [Function.comp, hmi]
        have hginst : ∀ m : MovingRow, ((fun m : MovingRow =>
            if (m.inst == row.id) = true then { m with
              redirects_count := m.redirects_count + 1 }
            else m) m).inst = m.inst := by
          intro m
          dsimp only
          split <;> rfl
        by_cases h0 : 0 < db.moving.countP (fun m =>
          m.inst == row.id && m.moving_to == (toRow.id : Int))
        · cases hfm : db.moving.find? (fun m => m.inst == row.id) with
          | none =>
            have hm : (db.moving.map (fun m =>
                if (m.inst == row.id) = true then { m with
                  redirects_count := m.redirects_count + 1 }
                else m)).find? (fun m => m.inst == row.id) = none := by
              rw [List.find?_map, hpg, hfm]
              rfl
            simp only [Db.mark_moved, hfind, hstate, hfto]
            rw [if_pos h0]
            simp only [hm, Option.getD_none]
            exact ⟨⟨hw1, hw2, hw3, hw4⟩, hside⟩
          | some m0 =>
            have hm0 : m0.inst = row.id := by simpa using List.find?_some hfm
            have hm : (db.moving.map (fun m =>
                if (m.inst == row.id) = true then { m with
                  redirects_count := m.redirects_count + 1 }
                else m)).find? (fun m => m.inst == row.id) =
                some { m0 with redirects_count := m0.redirects_count + 1 } := by
              rw [List.find?_map, hpg, hfm]
              simp [hm0]
            have hd0 : dcount db row.id = 0 := by
              have h1 := hrowOk.1
              rw [hstate] at h1
              simpa [dBound] using h1
            simp only [Db.mark_moved, hfind, hstate, hfto]
            rw [if_pos h0]
            simp only [hm]
            by_cases hcond : 7 < m0.redirects_count + 1 ∧ now - 604800 < m0.moving_since
            · rw [if_pos hcond]
              by_cases hmdg : (db.moved.any (fun v => v.inst == row.id)) = true
              · rw [if_pos hmdg]
                simp only [Option.getD_none]
                exact ⟨⟨hw1, hw2, hw3, hw4⟩, hside⟩
              · rw [if_neg hmdg]
                simp only [Option.getD_some]
                have hmd0 : mdcount db row.id = 0 := by
                  unfold mdcount
                  rw [List.countP_eq_zero]
                  intro v hv
                  rw [Bool.not_eq_true] at hmdg
                  exact List.any_eq_false.mp hmdg v hv
                refine ⟨⟨?_, hw2, ?_, ?_⟩, ?_⟩
                · intro r hr
                  simp only [List.mem_map] at hr
                  obtain ⟨a, ha, rfl⟩ := hr
                  by_cases hai : (a.id == row.id) = true
                  · rw [if_pos hai]
                    exact hw1 a ha
                  · rw [if_neg hai]
                    exact hw1 a ha
                · intro m hm'
                  have hmem := List.mem_of_mem_filter hm'
                  simp only [List.mem_map] at hmem
                  obtain ⟨a, ha, rfl⟩ := hmem
                  rw [hginst a]
                  exact hw3 a ha
                · intro v hv
                  rcases List.mem_append.mp hv with hva | hvx
                  · exact hw4 v hva
                  · have : v = ⟨row.id, toRow.id⟩ := by simpa using hvx
                    rw [this]
                    exact hw1 row hrowmem
                · intro r' hr'
                  simp only [List.mem_map] at hr'
                  obtain ⟨a, ha, rfl⟩ := hr'
                  have hok := hside a ha
                  by_cases hai : (a.id == row.id) = true
                  · rw [if_pos hai]
                    have haid : a.id = row.id := by simpa using hai
                    refine ⟨?_, ?_, ?_⟩
                    · show dcount db _ ≤ _
                      simp [haid, hd0, dBound]
                    · show ((db.moving.map (fun m =>
                        if (m.inst == row.id) = true then { m with
                          redirects_count := m.redirects_count + 1 }
                        else m)).filter (fun x => x.inst != row.id)).countP _ ≤ _
                      rw [moving_delete]
                      simp [haid, mvBound]
                    · show (db.moved ++ [(⟨row.id, toRow.id⟩ : MovedRow)]).countP _ ≤ _
                      rw [moved_insert]
                      simp [haid, hmd0, mdBound]
                      intro x hx
                      rw [Bool.not_eq_true] at hmdg
                      simpa using List.any_eq_false.mp hmdg x hx
                  · rw [if_neg hai]
                    have haid : ¬ a.id = row.id := by simpa using hai
                    refine instOk_transfer rfl rfl ?_ ?_ ?_ hok
                    · exact le_refl _
                    · show ((db.moving.map (fun m =>
                        if (m.inst == row.id) = true then { m with
                          redirects_count := m.redirects_count + 1 }
                        else m)).filter (fun x => x.inst != row.id)).countP _ ≤ _
                      rw [moving_delete, if_neg haid, moving_update _ _ hginst]
                      exact le_refl _
                    · show (db.moved ++ [(⟨row.id, toRow.id⟩ : MovedRow)]).countP _ ≤ _
                      rw [moved_insert, if_neg (fun h => haid h.symm)]
                      simp
                      exact le_refl _
            · rw [if_neg hcond]
              simp only [Option.getD_some]
              refine ⟨⟨?_, hw2, ?_, hw4⟩, ?_⟩
              · intro r hr
                simp only [List.mem_map] at hr
                obtain ⟨a, ha, rfl⟩ := hr
                by_cases hai : (a.id == row.id) = true
                · rw [if_pos hai]
                  exact hw1 a ha
                · rw [if_neg hai]
                  exact hw1 a ha
              · intro m hm'
                simp only [List.mem_map] at hm'
                obtain ⟨a, ha, rfl⟩ := hm'
                rw [hginst a]
                exact hw3 a ha
              · intro r' hr'
                simp only [List.mem_map] at hr'
                obtain ⟨a, ha, rfl⟩ := hr'
                have hok := hside a ha
                have hmc : ∀ i, (db.moving.map (fun m =>
                    if (m.inst == row.id) = true then { m with
                      redirects_count := m.redirects_count + 1 }
                    else m)).countP (fun m => m.inst == i) = mvcount db i := by
                  intro i
                  rw [moving_update _ _ hginst]
                  rfl
                by_cases hai : (a.id == row.id) = true
                · rw [if_pos hai]
                  refine instOk_transfer rfl rfl ?_ ?_ ?_ hok
                  · exact le_refl _
                  · show (db.moving.map _).countP _ ≤ _
                    rw [hmc]
                  · exact le_refl _
                · rw [if_neg hai]
                  refine instOk_transfer rfl rfl ?_ ?_ ?_ hok
                  · exact le_refl _
                  · show (db.moving.map _).countP _ ≤ _
                    rw [hmc]
                  · exact le_refl _
        · have hginst2 : ∀ m : MovingRow, ((fun m : MovingRow =>
              if (m.inst == row.id) = true then { m with
                moving_since := now, redirects_count := 1,
                moving_to := (toRow.id : Int) }
              else m) m).inst = m.inst := by
            intro m
            dsimp only
            split <;> rfl
          simp only [Db.mark_moved, hfind, hstate, hfto]
          rw [if_neg h0]
          simp only [Option.getD_some]
          refine ⟨⟨?_, hw2, ?_, hw4⟩, ?_⟩
          · intro r hr
            simp only [List.mem_map] at hr
            obtain ⟨a, ha, rfl⟩ := hr
            by_cases hai : (a.id == row.id) = true
            · rw [if_pos hai]
              exact hw1 a ha
            · rw [if_neg hai]
              exact hw1 a ha
          · intro m hm'
            simp only [List.mem_map] at hm'
            obtain ⟨a, ha, rfl⟩ := hm'
            rw [hginst2 a]
            exact hw3 a ha
          · intro r' hr'
            simp only [List.mem_map] at hr'
            obtain ⟨a, ha, rfl⟩ := hr'
            have hok := hside a ha
            have hmc : ∀ i, (db.moving.map (fun m =>
                if (m.inst == row.id) = true then { m with
                  moving_since := now, redirects_count := 1,
                  moving_to := (toRow.id : Int) }
                else m)).countP (fun m => m.inst == i) = mvcount db i := by
              intro i
              rw [moving_update _ _ hginst2]
              rfl
            by_cases hai : (a.id == row.id) = true
            · rw [if_pos hai]
              refine instOk_transfer rfl rfl ?_ ?_ ?_ hok
              · exact le_refl _
              · show (db.moving.map _).countP _ ≤ _
                rw [hmc]
              · exact le_refl _
            · rw [if_neg hai]
              refine instOk_transfer rfl rfl ?_ ?_ ?_ hok
              · exact le_refl _
              · show (db.moving.map _).countP _ ≤ _
                rw [hmc]
              · exact le_refl _
    case Moved =>
      simp only [Db.mark_moved, hfind, hstate, Option.getD_some]
      refine ⟨⟨?_, hw2, hw3, hw4⟩, ?_⟩
      · intro r hr
        simp only [List.mem_map] at hr
        obtain ⟨a, ha, rfl⟩ := hr
        by_cases hai : (a.id == row.id) = true
        · rw [if_pos hai]
          exact hw1 a ha
        · rw [if_neg hai]
          exact hw1 a ha
      · intro r' hr'
        simp only [List.mem_map] at hr'
        obtain ⟨a, ha, rfl⟩ := hr'
        have hok := hside a ha
        by_cases hai : (a.id == row.id) = true
        · rw [if_pos hai]
          exact hok
        · rw [if_neg hai]
          exact hok
    all_goals
      have hmd0 : mdcount db row.id = 0 := by
        have h3 := hrowOk.2.2
        rw [hstate] at h3
        simpa [mdBound] using h3
      simp only [Db.mark_moved, hfind, hstate]
      by_cases hto : (db.instances.any (fun r => r.hostname == toHost)) = true
      · rw [if_pos hto]
        cases hfto : db.instances.find? (fun r => r.hostname == toHost) with
        | none =>
          simp only [hfto, Option.getD_none]
          exact ⟨⟨hw1, hw2, hw3, hw4⟩, hside⟩
        | some toRow =>
          simp only [hfto]
          by_cases hmvg : (db.moving.any (fun m => m.inst == row.id)) = true
          · rw [if_pos hmvg]
            simp only [Option.getD_none]
            exact ⟨⟨hw1, hw2, hw3, hw4⟩, hside⟩
          · rw [if_neg hmvg]
            simp only [Option.getD_some]
            have hmv0 : mvcount db row.id = 0 := by
              unfold mvcount
              rw [List.countP_eq_zero]
              intro m hm
              rw [Bool.not_eq_true] at hmvg
              exact List.any_eq_false.mp hmvg m hm
            refine ⟨⟨?_, ?_, ?_, hw4⟩, ?_⟩
            · intro r hr
              simp only [List.mem_map] at hr
              obtain ⟨a, ha, rfl⟩ := hr
              by_cases hai : (a.id == row.id) = true
              · rw [if_pos hai]
                exact hw1 a ha
              · rw [if_neg hai]
                exact hw1 a ha
            · intro d hd
              exact hw2 d (List.mem_of_mem_filter hd)
            · intro m hm
              rcases List.mem_append.mp hm with hma | hmx
              · exact hw3 m hma
              · have : m = ⟨row.id, (toRow.id : Int), 1, now⟩ := by simpa using hmx
                rw [this]
                exact hw1 row hrowmem
            · intro r' hr'
              simp only [List.mem_map] at hr'
              obtain ⟨a, ha, rfl⟩ := hr'
              have hok := hside a ha
              by_cases hai : (a.id == row.id) = true
              · rw [if_pos hai]
                have haid : a.id = row.id := by simpa using hai
                refine ⟨?_, ?_, ?_⟩
                · show (db.dying.filter (fun d => d.inst != row.id)).countP _ ≤ _
                  rw [dying_delete]
                  simp [haid, dBound]
                · show (db.moving ++ [(⟨row.id, (toRow.id : Int), 1, now⟩ : MovingRow)]).countP _ ≤ _
                  rw [moving_insert]
                  simp [haid, hmv0, mvBound]
                  intro x hx
                  rw [Bool.not_eq_true] at hmvg
                  simpa using List.any_eq_false.mp hmvg x hx
                · show mdcount db _ ≤ _
                  simp [haid, hmd0, mdBound]
              · rw [if_neg hai]
                have haid : ¬ a.id = row.id := by simpa using hai
                refine instOk_transfer rfl rfl ?_ ?_ ?_ hok
                · show (db.dying.filter (fun d => d.inst != row.id)).countP _ ≤ _
                  rw [dying_delete, if_neg haid]
                  exact le_refl _
                · show (db.moving ++ [(⟨row.id, (toRow.id : Int), 1, now⟩ : MovingRow)]).countP _ ≤ _
                  rw [moving_insert, if_neg (fun h => haid h.symm)]
                  simp
                  exact le_refl _
                · exact le_refl _
      · rw [if_neg hto]
        cases hfto : (db.instances ++
            [(⟨db.next_id, toHost, none, none, .Discovered, none, nextToday, none⟩ :
              InstanceRow)]).find? (fun r => r.hostname == toHost) with
        | none =>
          simp only [hfto, Option.getD_none]
          exact ⟨⟨hw1, hw2, hw3, hw4⟩, hside⟩
        | some toRow =>
          simp only [hfto]
          by_cases hmvg : (db.moving.any (fun m => m.inst == row.id)) = true
          · rw [if_pos hmvg]
            simp only [Option.getD_none]
            exact ⟨⟨hw1, hw2, hw3, hw4⟩, hside⟩
          · rw [if_neg hmvg]
            simp only [Option.getD_some]
            have hmv0 : mvcount db row.id = 0 := by
              unfold mvcount
              rw [List.countP_eq_zero]
              intro m hm
              rw [Bool.not_eq_true] at hmvg
              exact List.any_eq_false.mp hmvg m hm
            have hrowlt : row.id < db.next_id := hw1 row hrowmem
            refine ⟨⟨?_, ?_, ?_, ?_⟩, ?_⟩
            · intro r hr
              simp only [List.mem_map] at hr
              obtain ⟨a, ha, rfl⟩ := hr
              rcases List.mem_append.mp ha with haa | hax
              · by_cases hai : (a.id == row.id) = true
                · rw [if_pos hai]
                  show a.id < db.next_id + 1
                  exact Nat.lt_succ_of_lt (hw1 a haa)
                · rw [if_neg hai]
                  show a.id < db.next_id + 1
                  exact Nat.lt_succ_of_lt (hw1 a haa)
              · have hea : a =
                    ⟨db.next_id, toHost, none, none, .Discovered, none, nextToday, none⟩ := by
                  simpa using hax
                subst hea
                by_cases hai : ((db.next_id : Nat) == row.id) = true
                · rw [if_pos hai]
                  show db.next_id < db.next_id + 1
                  exact Nat.lt_succ_self _
                · rw [if_neg hai]
                  show db.next_id < db.next_id + 1
                  exact Nat.lt_succ_self _
            · intro d hd
              exact Nat.lt_succ_of_lt (hw2 d (List.mem_of_mem_filter hd))
            · intro m hm
              rcases List.mem_append.mp hm with hma | hmx
              · exact Nat.lt_succ_of_lt (hw3 m hma)
              · have : m = ⟨row.id, (toRow.id : Int), 1, now⟩ := by simpa using hmx
                rw [this]
                exact Nat.lt_succ_of_lt hrowlt
            · intro v hv
              exact Nat.lt_succ_of_lt (hw4 v hv)
            · intro r' hr'
              simp only [List.mem_map] at hr'
              obtain ⟨a, ha, rfl⟩ := hr'
              rcases List.mem_append.mp ha with haa | hax
              · have hok := hside a haa
                by_cases hai : (a.id == row.id) = true
                · rw [if_pos hai]
                  have haid : a.id = row.id := by simpa using hai
                  refine ⟨?_, ?_, ?_⟩
                  · show (db.dying.filter (fun d => d.inst != row.id)).countP _ ≤ _
                    rw [dying_delete]
                    simp [haid, dBound]
                  · show (db.moving ++ [(⟨row.id, (toRow.id : Int), 1, now⟩ : MovingRow)]).countP _ ≤ _
                    rw [moving_insert]
                    simp [haid, hmv0, mvBound]
                    intro x hx
                    rw [Bool.not_eq_true] at hmvg
                    simpa using List.any_eq_false.mp hmvg x hx
                  · show mdcount db _ ≤ _
                    simp [haid, hmd0, mdBound]
                · rw [if_neg hai]
                  have haid : ¬ a.id = row.id := by simpa using hai
                  refine instOk_transfer rfl rfl ?_ ?_ ?_ hok
                  · show (db.dying.filter (fun d => d.inst != row.id)).countP _ ≤ _
                    rw [dying_delete, if_neg haid]
                    exact le_refl _
                  · show (db.moving ++ [(⟨row.id, (toRow.id : Int), 1, now⟩ : MovingRow)]).countP _ ≤ _
                    rw [moving_insert, if_neg (fun h => haid h.symm)]
                    simp
                    exact le_refl _
                  · exact le_refl _
              · have hea : a =
                    ⟨db.next_id, toHost, none, none, .Discovered, none, nextToday, none⟩ := by
                  simpa using hax
                subst hea
                have hne : ¬ (db.next_id : Nat) = row.id := by omega
                have hai : ¬ ((db.next_id : Nat) == row.id) = true := by simpa using hne
                rw [if_neg hai]
                refine ⟨?_, ?_, ?_⟩
                · show (db.dying.filter (fun d => d.inst != row.id)).countP _ ≤ _
                  rw [dying_delete, if_neg hne]
                  have : db.dying.countP (fun d => d.inst == db.next_id) = 0 :=
                    countP_zero_of_lt db.dying (fun d => d.inst) db.next_id db.next_id hw2
                      (le_refl _)
                  simp [dBound, this]
                · show (db.moving ++ [(⟨row.id, (toRow.id : Int), 1, now⟩ : MovingRow)]).countP _ ≤ _
                  rw [moving_insert, if_neg (fun h : row.id = db.next_id => by omega)]
                  have : db.moving.countP (fun m => m.inst == db.next_id) = 0 :=
                    countP_zero_of_lt db.moving (fun m => m.inst) db.next_id db.next_id hw3
                      (le_refl _)
                  simp [mvBound, this]
                · show mdcount db _ ≤ _
                  have : db.moved.countP (fun v => v.inst == db.next_id) = 0 :=
                    countP_zero_of_lt db.moved (fun v => v.inst) db.next_id db.next_id hw4
                      (le_refl _)
                  simp [mdBound]
                  exact this

instance (db : DB) : Decidable (wfDB db) := by
  unfold wfDB
  infer_instance

instance (db : DB) : Decidable (sideOk db) := by
  unfold sideOk
  infer_instance

instance (db : DB) : Decidable (StoreInv db) := by
  unfold StoreInv
  infer_instance

/-- One mutator call preserves the store invariant. -/
theorem inv_applyOp (db : DB) (op : Op) (hinv : StoreInv db) : StoreInv (applyOp db op) := by
  cases op with
  | opAlive h n d => exact inv_mark_alive n d db h hinv
  | opDead h n d w => exact inv_mark_dead n d w db h hinv
  | opMoved h t n td d w => exact inv_mark_moved n td d w db h t hinv
  | opResched h d w => exact inv_reschedule d w db h hinv

/-- Any sequence of mutator calls preserves the store invariant. -/
theorem inv_runOps (db : DB) (ops : List Op) (hinv : StoreInv db) :
    StoreInv (runOps db ops) := by
  induction ops generalizing db with
  | nil => exact hinv
  | cons op rest ih => exact ih _ (inv_applyOp db op hinv)

/-- A freshly initialized empty database satisfies the store invariant. -/
theorem storeInv_init (now : Int) : StoreInv (Db.init now ⟨[], [], [], [], 0⟩) := by
  rw [show Db.init now ⟨[], [], [], [], 0⟩ =
      ⟨[⟨0, "mastodon.social", none, none, .Discovered, none, now, none⟩], [], [], [], 1⟩
    from rfl]
  refine ⟨⟨?_, ?_, ?_, ?_⟩, ?_⟩
  · intro r hr
    rw [List.mem_singleton] at hr
    subst hr
    exact Nat.zero_lt_one
  · intro d hd
    cases hd
  · intro m hm
    cases hm
  · intro v hv
    cases hv
  · intro r hr
    rw [List.mem_singleton] at hr
    subst hr
    exact ⟨Nat.le_refl 0, Nat.le_refl 0, Nat.le_refl 0⟩

/-- Claim C3: after any sequence of the mutators `mark_alive`, `mark_dead`,
`mark_moved` and `reschedule` applied to a database satisfying the store
invariant (as a freshly initialized database does, see `storeInv_init`),
every instance has at most one side-table row across `dying_state_data`,
`moving_state_data` and `moved_state_data` (the counts at its id sum to at
most 1), and that row lives in the table matching the instance state: the
per-table bounds are 1 exactly for the matching state and 0 otherwise, so
a Discovered, Alive or Dead instance has no side-table row at all. -/
theorem c3_side_table_discipline (db : DB) (hinv : StoreInv db) (ops : List Op) :
    ∀ r ∈ (runOps db ops).instances,
      dcount (runOps db ops) r.id + mvcount (runOps db ops) r.id +
        mdcount (runOps db ops) r.id ≤ 1 ∧
      dcount (runOps db ops) r.id ≤ dBound r.state ∧
      mvcount (runOps db ops) r.id ≤ mvBound r.state ∧
      mdcount (runOps db ops) r.id ≤ mdBound r.state := by
  intro r hr
  obtain ⟨h1, h2, h3⟩ := (inv_runOps db ops hinv).2 r hr
  refine ⟨?_, h1, h2, h3⟩
  cases hs : r.state
  all_goals
    rw [hs] at h1 h2 h3
    simp only [dBound, mvBound, mdBound] at h1 h2 h3
    omega

/-- Witness for C3: a Discovered instance is marked dead, then moved, then
alive, then rescheduled; the discipline holds for the resulting Alive row
(id 1), obtained by applying the claim theorem at that concrete database,
operation sequence, and row. -/
theorem c3_side_table_discipline_witness :
    dcount (runOps ⟨[⟨1, "y.example", none, none, .Discovered, none, 100, none⟩], [], [], [], 2⟩
        [.opDead "y.example" 1000 2000 3000,
         .opMoved "y.example" "z.example" 1100 1500 2100 3100,
         .opAlive "y.example" 1200 2200,
         .opResched "y.example" 2300 3300]) 1 +
      mvcount (runOps ⟨[⟨1, "y.example", none, none, .Discovered, none, 100, none⟩], [], [], [], 2⟩
        [.opDead "y.example" 1000 2000 3000,
         .opMoved "y.example" "z.example" 1100 1500 2100 3100,
         .opAlive "y.example" 1200 2200,
         .opResched "y.example" 2300 3300]) 1 +
      mdcount (runOps ⟨[⟨1, "y.example", none, none, .Discovered, none, 100, none⟩], [], [], [], 2⟩
        [.opDead "y.example" 1000 2000 3000,
         .opMoved "y.example" "z.example" 1100 1500 2100 3100,
         .opAlive "y.example" 1200 2200,
         .opResched "y.example" 2300 3300]) 1 ≤ 1 ∧
    dcount (runOps ⟨[⟨1, "y.example", none, none, .Discovered, none, 100, none⟩], [], [], [], 2⟩
        [.opDead "y.example" 1000 2000 3000,
         .opMoved "y.example" "z.example" 1100 1500 2100 3100,
         .opAlive "y.example" 1200 2200,
         .opResched "y.example" 2300 3300]) 1 ≤ dBound .Alive ∧
    mvcount (runOps ⟨[⟨1, "y.example", none, none, .Discovered, none, 100, none⟩], [], [], [], 2⟩
        [.opDead "y.example" 1000 2000 3000,
         .opMoved "y.example" "z.example" 1100 1500 2100 3100,
         .opAlive "y.example" 1200 2200,
         .opResched "y.example" 2300 3300]) 1 ≤ mvBound .Alive ∧
    mdcount (runOps ⟨[⟨1, "y.example", none, none, .Discovered, none, 100, none⟩], [], [], [], 2⟩
        [.opDead "y.example" 1000 2000 3000,
         .opMoved "y.example" "z.example" 1100 1500 2100 3100,
         .opAlive "y.example" 1200 2200,
         .opResched "y.example" 2300 3300]) 1 ≤ mdBound .Alive :=
  c3_side_table_discipline
    ⟨[⟨1, "y.example", none, none, .Discovered, none, 100, none⟩], [], [], [], 2⟩
    (by decide)
    [.opDead "y.example" 1000 2000 3000,
     .opMoved "y.example" "z.example" 1100 1500 2100 3100,
     .opAlive "y.example" 1200 2200,
     .opResched "y.example" 2300 3300]
    ⟨1, "y.example", none, none, .Alive, some 1200, 2300, none⟩ (by decide)

